import Mathlib

/-!
Verification of the gspread-dataframe module: a shallow embedding of
the functions in gspread_dataframe.py (cell representation codec,
capacity-aware resizer, grid reader, and the write-path layout planner
of set_with_dataframe), together with theorems settling the frozen
claims about the module.
-/

namespace Gspread

/-- The apostrophe character, written by code point to keep the
development free of quote-mark literals. -/
def apos : Char := Char.ofNat 39

/-- One-character string holding the apostrophe. -/
def aposS : String := String.singleton apos

/-- Renders the Python test value.startswith(p) for a one-character
prefix p: true when the string is nonempty and its first character is ch. -/
def strStarts (s : String) (ch : Char) : Bool :=
  match s.data with
  | [] => false
  | c :: _ => c = ch

/-- A Python value as seen by cellrepr: the null sentinel (None or NaN,
where pandas isnull is True), a real number, a string, or any other
object (carried as the string produced by str(value)). -/
inductive PyVal where
  | none : PyVal
  | num : Int → PyVal
  | str : String → PyVal
  | other : String → PyVal
deriving DecidableEq

/-- The value stored into a Cell by the write path: either a string or a
number passed through unconverted (the isinstance(value, Real) branch). -/
inductive CellVal where
  | s : String → CellVal
  | n : Int → CellVal
deriving DecidableEq

/-- The string_escaping parameter of set_with_dataframe: one of the three
mode strings, a callable predicate, or any other (invalid) value. -/
inductive StringEscaping where
  | default : StringEscaping
  | off : StringEscaping
  | full : StringEscaping
  | callable : (String → Bool) → StringEscaping
  | invalid : String → StringEscaping

/-- The ValueError message raised for an invalid string_escaping value
(quote marks of the original message elided). -/
def escapingErrorMessage : String :=
  "string_escaping parameter must be one of: default, off, full, any callable taking one parameter"

/-- Embedding of _escaped_string: empty values are returned unescaped
before the policy is consulted; mode default escapes only values already
starting with an apostrophe; off never escapes; full always escapes;
a callable escapes when it returns true; any other value raises ValueError. -/
def _escaped_string (value : String) (string_escaping : StringEscaping) :
    Except String String :=
  if value = "" then .ok ""
  else
    match string_escaping with
    | .default => if strStarts value apos then .ok (aposS ++ value) else .ok value
    | .off => .ok value
    | .full => .ok (aposS ++ value)
    | .callable p => if p value then .ok (aposS ++ value) else .ok value
    | .invalid _ => .error escapingErrorMessage

/-- The string branch of _cellrepr: with allow_formulas false, a string
beginning with the equals sign is returned apostrophe-prefixed at once;
otherwise the string-escaping policy is applied. -/
def cellreprText (sv : String) (allow_formulas : Bool)
    (string_escaping : StringEscaping) : Except String CellVal :=
  if allow_formulas = false ∧ strStarts sv '=' then .ok (.s (aposS ++ sv))
  else Except.map .s (_escaped_string sv string_escaping)

/-- Embedding of _cellrepr: null maps to the empty string, a Real passes
through unconverted, any other non-string value is first converted with
str (carried in the PyVal.other constructor), and strings go through the
formula/escaping logic. -/
def _cellrepr (value : PyVal) (allow_formulas : Bool)
    (string_escaping : StringEscaping) : Except String CellVal :=
  match value with
  | .none => .ok (.s "")
  | .num n => .ok (.n n)
  | .str sv => cellreprText sv allow_formulas string_escaping
  | .other sv => cellreprText sv allow_formulas string_escaping

/-- A worksheet's declared grid dimensions. -/
structure Worksheet where
  row_count : Nat
  col_count : Nat
deriving DecidableEq

/-- The maximum cell count of a worksheet, from the module constant. -/
def WORKSHEET_MAX_CELL_COUNT : Nat := 5000000

/-- Embedding of _resize_to_minimum, rendered as the list of resize
invocations issued to the worksheet, in order; each invocation carries
its optional rows and cols arguments. Mirrors the source: each desired
dimension is clamped up to the current one; if both are requested and the
clamped product exceeds the cell limit, the original requested values are
restored; if columns shrink below current while the desired row count
against the current column count exceeds the limit, the column update is
issued first as a separate call. -/
def _resize_to_minimum (ws : Worksheet) (rows cols : Option Nat) :
    List (Option Nat × Option Nat) :=
  let current_rows := ws.row_count
  let current_cols := ws.col_count
  let desired_rows : Option Nat :=
    rows.map (fun r => if r ≤ current_rows then current_rows else r)
  let desired_cols : Option Nat :=
    cols.map (fun c => if c ≤ current_cols then current_cols else c)
  match desired_rows, desired_cols, rows, cols with
  | some dr, some dc, some r0, some c0 =>
      let dr2 := if dr * dc > WORKSHEET_MAX_CELL_COUNT then r0 else dr
      let dc2 := if dr * dc > WORKSHEET_MAX_CELL_COUNT then c0 else dc
      if c0 < current_cols ∧ dr2 * current_cols > WORKSHEET_MAX_CELL_COUNT then
        [(Option.none, some dc2), (some dr2, Option.none)]
      else
        [(some dr2, some dc2)]
  | dr?, dc?, _, _ =>
      if dr?.isSome ∨ dc?.isSome then [(dr?, dc?)] else []

/-- Effect of one worksheet.resize call: an absent argument leaves that
dimension unchanged. -/
def applyResize (ws : Worksheet) (p : Option Nat × Option Nat) : Worksheet :=
  ⟨p.1.getD ws.row_count, p.2.getD ws.col_count⟩

/-- Final dimensions after a sequence of resize calls. -/
def runResizes (ws : Worksheet) (calls : List (Option Nat × Option Nat)) :
    Worksheet :=
  calls.foldl applyResize ws

/-- Every dimension state passed through while the remote service applies
a sequence of resize calls, given that the service applies a new rowCount
before a new colCount inside a single call: before each call, after its
row count is applied against the old column count, and after the call. -/
def rowFirstStates (ws : Worksheet) :
    List (Option Nat × Option Nat) → List Worksheet
  | [] => [ws]
  | p :: rest =>
      ws :: ⟨p.1.getD ws.row_count, ws.col_count⟩ ::
        rowFirstStates (applyResize ws p) rest

/-- Embedding of gspread.utils.fill_gaps as used by _get_all_values: pad
the list of rows up to the requested row count with empty rows, then pad
every row up to the requested column count with empty strings (rows or
row lists already long enough are left unchanged, as in the source where
a negative padding count produces an empty padding list). -/
def fill_gaps (L : List (List String)) (rows cols : Nat) : List (List String) :=
  let padded := L ++ List.replicate (rows - L.length) []
  padded.map (fun r => r ++ List.replicate (cols - r.length) "")

/-- Largest 1-based row key present in the rows dictionary built by
_get_all_values: row i contributes key i+1 exactly when the rectangle row
is nonempty (only cells populate the dictionary); 0 when no key exists. -/
def maxRowKey (i : Nat) : List (List String) → Nat
  | [] => 0
  | r :: rest =>
      let m := maxRowKey (i + 1) rest
      if r.isEmpty then m else max (i + 1) m

/-- Largest 1-based column key across all per-row dictionaries built by
_get_all_values: a row of length n contributes keys 1..n, so the maximum
is the maximum row length; 0 when there are no cells. -/
def maxColKey : List (List String) → Nat
  | [] => 0
  | r :: rest => max r.length (maxColKey rest)

/-- Embedding of _get_all_values, with the worksheet fetch abstracted to
its declared dimensions and the row lists of the response. The cells are
laid into a dictionary of dictionaries defaulting to the empty string;
maxRowKey/maxColKey render the max over the dictionary keys, and the
final grid reads each coordinate back out of the rectangle with the
empty string for every absent position. An empty dictionary (no cells at
all, i.e. every rectangle row empty) returns the empty list. -/
def _get_all_values (row_count col_count : Nat) (values : List (List String)) :
    List (List String) :=
  let rect_values := fill_gaps values row_count col_count
  if maxRowKey 0 rect_values = 0 then []
  else
    (List.range (maxRowKey 0 rect_values)).map (fun i =>
      (List.range (maxColKey rect_values)).map (fun j =>
        (rect_values.getD i []).getD j ""))

/-- A pandas row index: either a flat Index with one name and scalar
labels, or a MultiIndex with level names and tuple labels. -/
inductive RowIndex where
  | flat : PyVal → List PyVal → RowIndex
  | multi : List PyVal → List (List PyVal) → RowIndex
deriving DecidableEq

/-- A pandas columns object: either a flat Index of labels, or a
MultiIndex of the given level count whose labels are tuples. -/
inductive ColLabels where
  | flat : List PyVal → ColLabels
  | multi : Nat → List (List PyVal) → ColLabels
deriving DecidableEq

/-- A pandas DataFrame as consumed by set_with_dataframe: its index, its
columns object and its rows of data values. The pandas invariant that
the index and the data have the same number of rows is carried as a
hypothesis where needed. -/
structure DataFrame where
  index : RowIndex
  columns : ColLabels
  data : List (List PyVal)
deriving DecidableEq

/-- Embedding of _determine_index_column_size: the level count for a
MultiIndex (which has a levshape attribute), otherwise 1. -/
def _determine_index_column_size : RowIndex → Nat
  | .flat _ _ => 1
  | .multi names _ => names.length

/-- Embedding of _determine_column_header_size: the level count for
MultiIndex columns, otherwise 1. -/
def _determine_column_header_size : ColLabels → Nat
  | .flat _ => 1
  | .multi n _ => n

/-- The index names list used for header rows: index.names, which for a
flat Index is the one-element list holding its name. -/
def indexNames : RowIndex → List PyVal
  | .flat name _ => [name]
  | .multi names _ => names

/-- The per-row index label tuples: a flat Index label is wrapped into a
one-element list (index_value = [index_value] in the source when the
index is not a MultiIndex); MultiIndex rows are their tuples. (The
source would also wrap the rows of a single-level MultiIndex whole; that
degenerate case is not modelled.) -/
def indexRows : RowIndex → List (List PyVal)
  | .flat _ vs => vs.map (fun v => [v])
  | .multi _ vss => vss

/-- Number of columns of the columns object (len of dataframe.columns). -/
def colCount : ColLabels → Nat
  | .flat ls => ls.length
  | .multi _ ls => ls.length

/-- One emission loop over a list of values at a fixed row, one update
per value at consecutive columns (for idx, val in enumerate(elts)). -/
def rowEntries (r c : Nat) : List PyVal → List (Nat × Nat × PyVal)
  | [] => []
  | v :: vs => (r, c, v) :: rowEntries r (c + 1) vs

/-- One header row of a multi-level header: for each label tuple, the
component of the given level (tup.getD renders the tuple indexing; for
well-formed input every tuple has the full level count). -/
def headerLevelRow (r c level : Nat) :
    List (List PyVal) → List (Nat × Nat × PyVal)
  | [] => []
  | tup :: rest => (r, c, tup.getD level PyVal.none) ::
      headerLevelRow r (c + 1) level rest

/-- The level loop of the multi-level header branch: one header row per
level 0..n-1, each one row further down, in level order. -/
def headerMultiEntries (r c : Nat) (elts : List (List PyVal)) :
    Nat → List (Nat × Nat × PyVal)
  | 0 => []
  | n + 1 => headerMultiEntries r c elts n ++ headerLevelRow (r + n) c n elts

/-- The include_column_header branch of set_with_dataframe, rendered as
the (row, col, value) triples it appends. With multi-level columns the
index level names, when the index is included, are prepended as tuples
padded with None above their deepest level; with flat columns the index
names are prepended as plain labels in the single header row. -/
def headerEntries (cols : ColLabels) (idx : RowIndex) (include_index : Bool)
    (r c : Nat) : List (Nat × Nat × PyVal) :=
  match cols with
  | .multi chs labels =>
      let elts :=
        (if include_index then
          (indexNames idx).map
            (fun e => List.replicate (chs - 1) PyVal.none ++ [e])
         else []) ++ labels
      headerMultiEntries r c elts chs
  | .flat labels =>
      let elts := (if include_index then indexNames idx else []) ++ labels
      rowEntries r c elts

/-- The nested data loops of set_with_dataframe: one update per cell of
each combined row, rows descending from the starting row. -/
def dataEntries (r c : Nat) : List (List PyVal) → List (Nat × Nat × PyVal)
  | [] => []
  | vr :: rest => rowEntries r c vr ++ dataEntries (r + 1) c rest

/-- The combined value rows: each data row prefixed with its index label
tuple when the index is included (zip of dataframe values with index
values; the two lists have equal length for a well-formed DataFrame). -/
def rowsWithIndex (df : DataFrame) (include_index : Bool) :
    List (List PyVal) :=
  (df.data.zip (indexRows df.index)).map
    (fun p => if include_index then p.2 ++ p.1 else p.1)

/-- First sheet row holding data values: the anchor row advanced past the
header rows exactly when a column header is written, by the column header
size (the row += 1 advances of the header loops). -/
def dataStartRow (df : DataFrame) (r : Nat)
    (include_column_header : Bool) : Nat :=
  if include_column_header then r + _determine_column_header_size df.columns
  else r

/-- All (row, col, raw value) triples planned by set_with_dataframe, in
emission order: header triples first, then the data triples. -/
def plannedEntries (df : DataFrame) (r c : Nat)
    (include_index include_column_header : Bool) :
    List (Nat × Nat × PyVal) :=
  (if include_column_header then
    headerEntries df.columns df.index include_index r c
   else []) ++
  dataEntries (dataStartRow df r include_column_header) c
    (rowsWithIndex df include_index)

/-- Runs _cellrepr over every planned triple in order, stopping at the
first ValueError, exactly as the interleaved appends of the source do. -/
def collectReprs (allow_formulas : Bool) (se : StringEscaping) :
    List (Nat × Nat × PyVal) → Except String (List (Nat × Nat × CellVal))
  | [] => .ok []
  | (r, c, v) :: rest =>
      match _cellrepr v allow_formulas se with
      | .error e => .error e
      | .ok cv =>
          match collectReprs allow_formulas se rest with
          | .error e => .error e
          | .ok tail => .ok ((r, c, cv) :: tail)

/-- A remote call issued by the write path: a worksheet resize (with its
optional rows/cols arguments) or an update_cells submission. -/
inductive RemoteCall where
  | resize : Option Nat → Option Nat → RemoteCall
  | updateCells : List (Nat × Nat × CellVal) → RemoteCall
deriving DecidableEq

/-- Outcome of a set_with_dataframe call: the remote calls issued in
order, the ValueError carried out if one was raised (calls already
issued stand), and whether the empty-update no-op was logged. -/
structure WriteResult where
  calls : List RemoteCall
  error : Option String
  loggedNoUpdates : Bool
deriving DecidableEq

/-- Embedding of set_with_dataframe with the default
handle_MultiIndex=repeat (the blank/merge revision of the source is
unfinished and references an unresolved name, and is not modelled):
computes the spanned shape, issues the resize calls (an exact resize
when resize=True, otherwise the _resize_to_minimum calls), then builds
the update list through _cellrepr; a ValueError there escapes with no
further remote call; an empty update list is logged and submits nothing;
otherwise one update_cells call is issued. -/
def set_with_dataframe (ws : Worksheet) (df : DataFrame) (row col : Nat)
    (include_index include_column_header resize : Bool)
    (allow_formulas : Bool) (string_escaping : StringEscaping) : WriteResult :=
  let y := df.data.length +
    (if include_column_header then _determine_column_header_size df.columns
     else 0)
  let x := colCount df.columns +
    (if include_index then _determine_index_column_size df.index else 0)
  let resizeCalls : List RemoteCall :=
    if resize then [RemoteCall.resize (some y) (some x)]
    else (_resize_to_minimum ws (some y) (some x)).map
      (fun p => RemoteCall.resize p.1 p.2)
  match collectReprs allow_formulas string_escaping
      (plannedEntries df row col include_index include_column_header) with
  | .error e => ⟨resizeCalls, some e, false⟩
  | .ok updates =>
      if updates.isEmpty then ⟨resizeCalls, Option.none, true⟩
      else ⟨resizeCalls ++ [RemoteCall.updateCells updates], Option.none, false⟩

/-- Modelled from the spec: the unnamed-placeholder pattern used by the
external parser for header-less columns (the drop-empty-columns logic of
get_as_dataframe is absent from the provided source file, which takes no
such options; spec sections 4.4 and 6 describe it). -/
def unnamedPlaceholder (s : String) : Bool :=
  List.isPrefixOf "Unnamed: ".data s.data

/-- Modelled from the spec: one column of a parsed read result, with its
header label and its cell values (none rendering a null value). -/
structure ReadColumn where
  label : String
  cells : List (Option String)
deriving DecidableEq

/-- Modelled from the spec: the drop-empty-columns cleanup of
get_as_dataframe, absent from the provided source file. When the option
is set, a column is dropped exactly when its header label matches the
unnamed-placeholder pattern and every one of its values is null; named
all-null columns are retained. -/
def dropEmptyColumnsCleanup (cols : List ReadColumn)
    (drop_empty_columns : Bool) : List ReadColumn :=
  if drop_empty_columns then
    cols.filter
      (fun c => !(unnamedPlaceholder c.label && c.cells.all Option.isNone))
  else cols

/-- Concrete one-column DataFrame with a two-level column header and a
named flat index, used to settle the header-layout claim. -/
def dfHdr : DataFrame :=
  ⟨.flat (PyVal.str "idx") [PyVal.str "r1"],
   .multi 2 [[PyVal.str "a", PyVal.str "b"]],
   [[PyVal.num 1]]⟩

/-- Concrete one-cell DataFrame holding a non-empty string value, used to
settle the invalid-escaping ordering claim. -/
def dfText : DataFrame :=
  ⟨.flat PyVal.none [PyVal.none], .flat [PyVal.str "colA"],
   [[PyVal.str "hello"]]⟩

/-! Theorems settling the claims. -/

/-- Claim C1: for a worksheet at (100, 26) and a request for rows=1000000
and cols=2, with the maximum cell count between 1000000 x 2 and
1000000 x 26, the resizer issues exactly two resize calls, the column
reduction (cols=2) strictly before the row increase (rows=1000000); the
final dimensions are exactly (1000000, 2) and no intermediate state,
including the row-first state inside each call, exceeds the maximum. -/
theorem resize_hazard_reorders_calls :
    _resize_to_minimum ⟨100, 26⟩ (some 1000000) (some 2) =
      [(Option.none, some 2), (some 1000000, Option.none)] ∧
    runResizes ⟨100, 26⟩
        (_resize_to_minimum ⟨100, 26⟩ (some 1000000) (some 2)) =
      ⟨1000000, 2⟩ ∧
    (rowFirstStates ⟨100, 26⟩
        (_resize_to_minimum ⟨100, 26⟩ (some 1000000) (some 2))).all
      (fun w => w.row_count * w.col_count ≤ WORKSHEET_MAX_CELL_COUNT) = true ∧
    WORKSHEET_MAX_CELL_COUNT < 1000000 * 26 ∧
    1000000 * 2 < WORKSHEET_MAX_CELL_COUNT := by
  decide

/-- Claim C2, counterexample: requesting (5, 2) on a worksheet at
(100, 26) - both below current - issues one resize call (with arguments
equal to the current dimensions), not zero resize calls. -/
theorem resize_noop_counterexample :
    _resize_to_minimum ⟨100, 26⟩ (some 5) (some 2) =
      [(some 100, some 26)] ∧
    (_resize_to_minimum ⟨100, 26⟩ (some 5) (some 2)).length ≠ 0 := by
  decide

/-- Claim C2, amended: when both requested dimensions are at most the
current ones and the current dimensions are within the maximum cell
count, exactly one resize call is issued, whose arguments equal the
current dimensions, so the worksheet dimensions are unchanged (a no-op
on the dimensions, but one remote call rather than zero). -/
theorem resize_noop_single_unchanged_call (ws : Worksheet) (r c : Nat)
    (hr : r ≤ ws.row_count) (hc : c ≤ ws.col_count)
    (hmax : ws.row_count * ws.col_count ≤ WORKSHEET_MAX_CELL_COUNT) :
    _resize_to_minimum ws (some r) (some c) =
      [(some ws.row_count, some ws.col_count)] ∧
    runResizes ws (_resize_to_minimum ws (some r) (some c)) = ws := by
  have hgt : ¬ WORKSHEET_MAX_CELL_COUNT < ws.row_count * ws.col_count := by
    omega
  have h1 : _resize_to_minimum ws (some r) (some c) =
      [(some ws.row_count, some ws.col_count)] := by
    simp [_resize_to_minimum, hr, hc, hgt]
  refine ⟨h1, ?_⟩
  rw [h1]
  rfl

/-- Claim C2, witness for the amended theorem at worksheet (100, 26)
with request (5, 2). -/
theorem resize_noop_single_unchanged_call_witness :
    _resize_to_minimum ⟨100, 26⟩ (some 5) (some 2) =
      [(some 100, some 26)] ∧
    runResizes ⟨100, 26⟩ (_resize_to_minimum ⟨100, 26⟩ (some 5) (some 2)) =
      ⟨100, 26⟩ :=
  resize_noop_single_unchanged_call ⟨100, 26⟩ 5 2 (by decide) (by decide)
    (by decide)

/-- Helper: getD on an appended list retrieves from the left part when
the position is within it. -/
theorem getD_append_left {α : Type} (l1 l2 : List α) (k : Nat) (d : α)
    (hk : k < l1.length) : (l1 ++ l2).getD k d = l1.getD k d := by
  induction l1 generalizing k with
  | nil => simp at hk
  | cons a t ih =>
      cases k with
      | zero => rfl
      | succ n =>
          have hn : n < t.length := by simp at hk; omega
          simpa [List.getD_cons_succ] using ih n hn

/-- Helper: getD through a map, at an in-bounds position. -/
theorem getD_map_of_lt {α β : Type} (f : α → β) (l : List α) (k : Nat)
    (d : β) (d0 : α) (hk : k < l.length) :
    (l.map f).getD k d = f (l.getD k d0) := by
  induction l generalizing k with
  | nil => simp at hk
  | cons a t ih =>
      cases k with
      | zero => rfl
      | succ n =>
          have hn : n < t.length := by simp at hk; omega
          simpa [List.getD_cons_succ] using ih n hn

/-- Helper: the element just after a replicate block. -/
theorem getD_replicate_append {α : Type} (n : Nat) (a b d : α) :
    (List.replicate n a ++ [b]).getD n d = b := by
  induction n with
  | zero => rfl
  | succ m ih => simpa [List.replicate_succ, List.getD_cons_succ] using ih

/-- Helper: getD with the padding value as default sees through a
replicate padding appended on the right. -/
theorem getD_append_replicate {α : Type} (l : List α) (n : Nat) (d : α)
    (i : Nat) : (l ++ List.replicate n d).getD i d = l.getD i d := by
  induction l generalizing i with
  | nil =>
      simp only [List.nil_append]
      induction n generalizing i with
      | zero => rfl
      | succ m ihm =>
          cases i with
          | zero => rfl
          | succ j => simpa [List.replicate_succ, List.getD_cons_succ] using ihm j
  | cons a t ih =>
      cases i with
      | zero => rfl
      | succ j => simpa [List.getD_cons_succ] using ih j

/-- Helper: an erroring _escaped_string always carries the constant
configuration-error message. -/
theorem escaped_string_error_msg (v : String) (se : StringEscaping)
    (e : String) (h : _escaped_string v se = .error e) :
    e = escapingErrorMessage := by
  unfold _escaped_string at h
  split at h
  · simp at h
  · split at h <;> (try split at h) <;> simp_all

/-- Helper: an erroring _cellrepr always carries the constant
configuration-error message. -/
theorem cellrepr_error_msg (v : PyVal) (af : Bool) (se : StringEscaping)
    (e : String) (h : _cellrepr v af se = .error e) :
    e = escapingErrorMessage := by
  have htext : ∀ sv : String, cellreprText sv af se = .error e →
      e = escapingErrorMessage := by
    intro sv hsv
    unfold cellreprText at hsv
    split at hsv
    · simp at hsv
    · cases hes : _escaped_string sv se with
      | ok w => rw [hes] at hsv; simp [Except.map] at hsv
      | error e2 =>
          rw [hes] at hsv
          simp [Except.map] at hsv
          exact hsv ▸ escaped_string_error_msg sv se e2 hes
  cases v with
  | none => simp [_cellrepr] at h
  | num n => simp [_cellrepr] at h
  | str sv => exact htext sv h
  | other sv => exact htext sv h

/-- Helper: collectReprs can only fail with the constant
configuration-error message. -/
theorem collectReprs_error_msg (af : Bool) (se : StringEscaping) :
    ∀ (l : List (Nat × Nat × PyVal)) (e : String),
      collectReprs af se l = .error e → e = escapingErrorMessage := by
  intro l
  induction l with
  | nil => intro e h; simp [collectReprs] at h
  | cons x rest ih =>
      intro e h
      obtain ⟨r, c, v⟩ := x
      unfold collectReprs at h
      cases hcv : _cellrepr v af se with
      | error e2 =>
          rw [hcv] at h
          simp at h
          exact h ▸ cellrepr_error_msg v af se e2 hcv
      | ok cv =>
          rw [hcv] at h
          cases hrest : collectReprs af se rest with
          | error e2 =>
              rw [hrest] at h
              simp at h
              exact h ▸ ih e2 hrest
          | ok tail => rw [hrest] at h; simp at h

/-- Helper: collectReprs fails whenever some listed triple's value fails
_cellrepr. -/
theorem collectReprs_errors_of_mem (af : Bool) (se : StringEscaping)
    (l : List (Nat × Nat × PyVal)) (r c : Nat) (v : PyVal) (e0 : String)
    (hmem : (r, c, v) ∈ l) (herr : _cellrepr v af se = .error e0) :
    ∃ e, collectReprs af se l = .error e := by
  induction l with
  | nil => simp at hmem
  | cons x rest ih =>
      obtain ⟨r1, c1, v1⟩ := x
      cases hcv : _cellrepr v1 af se with
      | error e2 => exact ⟨e2, by unfold collectReprs; rw [hcv]⟩
      | ok cv =>
          rcases List.mem_cons.mp hmem with heq | hmem2
          · exfalso
            have hv1 : v = v1 := by
              have := congrArg (fun t : Nat × Nat × PyVal => t.2.2) heq
              simpa using this
            rw [← hv1, herr] at hcv
            exact Except.noConfusion hcv
          · obtain ⟨e, he⟩ := ih hmem2
            refine ⟨e, ?_⟩
            unfold collectReprs
            rw [hcv, he]

/-- Helper: a membership witness in one emission row. -/
theorem mem_rowEntries (r c : Nat) (vs : List PyVal) (v : PyVal)
    (hv : v ∈ vs) : ∃ c2, (r, c2, v) ∈ rowEntries r c vs := by
  induction vs generalizing c with
  | nil => simp at hv
  | cons a t ih =>
      rcases List.mem_cons.mp hv with rfl | hv2
      · exact ⟨c, by simp [rowEntries]⟩
      · obtain ⟨c2, hc2⟩ := ih (c + 1) hv2
        exact ⟨c2, by simp [rowEntries]; exact Or.inr hc2⟩

/-- Helper: a membership witness in the data emission loops. -/
theorem mem_dataEntries (r c : Nat) (rows0 : List (List PyVal))
    (vr : List PyVal) (v : PyVal) (hvr : vr ∈ rows0) (hv : v ∈ vr) :
    ∃ r2 c2, (r2, c2, v) ∈ dataEntries r c rows0 := by
  induction rows0 generalizing r with
  | nil => simp at hvr
  | cons a t ih =>
      rcases List.mem_cons.mp hvr with rfl | hvr2
      · obtain ⟨c2, hc2⟩ := mem_rowEntries r c _ v hv
        exact ⟨r, c2, by simp [dataEntries]; exact Or.inl hc2⟩
      · obtain ⟨r2, c2, h2⟩ := ih (r + 1) hvr2
        exact ⟨r2, c2, by simp [dataEntries]; exact Or.inr h2⟩

/-- Helper: a left-list member of a zip, when the right list is at least
as long. -/
theorem mem_zip_left_of_mem {α β : Type} (l1 : List α) (l2 : List β)
    (x : α) (h : l1.length ≤ l2.length) (hx : x ∈ l1) :
    ∃ y, (x, y) ∈ l1.zip l2 := by
  induction l1 generalizing l2 with
  | nil => simp at hx
  | cons a t ih =>
      cases l2 with
      | nil => simp at h
      | cons b t2 =>
          rcases List.mem_cons.mp hx with rfl | hx2
          · exact ⟨b, by simp⟩
          · have h2 : t.length ≤ t2.length := by simp at h; omega
            obtain ⟨y, hy⟩ := ih t2 h2 hx2
            exact ⟨y, List.mem_cons_of_mem _ hy⟩

/-- Helper: both-dimension requests always issue at least one resize
call. -/
theorem resize_to_minimum_both_some_ne_nil (ws : Worksheet) (a b : Nat) :
    _resize_to_minimum ws (some a) (some b) ≠ [] := by
  simp only [_resize_to_minimum, Option.map_some']
  intro h
  have hlen := congrArg List.length h
  rw [apply_ite List.length] at hlen
  simp at hlen
  split_ifs at hlen <;> omega

/-- Helper: no update_cells call among mapped resize calls. -/
theorem updateCells_not_mem_map_resize
    (l : List (Option Nat × Option Nat)) (u : List (Nat × Nat × CellVal)) :
    RemoteCall.updateCells u ∉
      l.map (fun p => RemoteCall.resize p.1 p.2) := by
  simp [List.mem_map]

/-- Claim C4: for a non-null string value under allow_formulas=true,
mode off returns the value with no apostrophe added; mode full prefixes
every non-empty value with an apostrophe; mode default adds an extra
apostrophe exactly when the value already begins with one; a callable
policy adds the prefix exactly when it returns true; and the empty
string is never escaped under any policy. -/
theorem cellrepr_policy_behaviour (v : String) (hv : v ≠ "") :
    _cellrepr (.str v) true .off = .ok (.s v) ∧
    _cellrepr (.str v) true .full = .ok (.s (aposS ++ v)) ∧
    _cellrepr (.str v) true .default =
      .ok (.s (if strStarts v apos then aposS ++ v else v)) ∧
    (∀ p, _cellrepr (.str v) true (.callable p) =
      .ok (.s (if p v then aposS ++ v else v))) ∧
    (∀ se, _cellrepr (.str "") true se = .ok (.s "")) := by
  refine ⟨?_, ?_, ?_, fun p => ?_, fun se => ?_⟩ <;>
    simp [_cellrepr, cellreprText, _escaped_string, hv] <;>
    (try split) <;> rfl

/-- Claim C4, witness at the value abc and the empty string under an
invalid policy. -/
theorem cellrepr_policy_behaviour_witness :
    _cellrepr (.str "abc") true .off = .ok (.s "abc") ∧
    _cellrepr (.str "abc") true .full = .ok (.s (aposS ++ "abc")) ∧
    _cellrepr (.str "") true (.invalid "bogus") = .ok (.s "") := by
  obtain ⟨h1, h2, _, _, h5⟩ := cellrepr_policy_behaviour "abc" (by decide)
  exact ⟨h1, h2, h5 (.invalid "bogus")⟩

/-- Claim C5: every null-sentinel value maps to the empty string, and
with allow_formulas=false every string beginning with the equals sign is
returned apostrophe-prefixed, whatever the string-escaping policy is
(the policy is not consulted on that path). -/
theorem cellrepr_null_and_formula (v : String) (af : Bool)
    (pol polF : StringEscaping) (hv : strStarts v '=' = true) :
    _cellrepr PyVal.none af pol = .ok (.s "") ∧
    _cellrepr (.str v) false polF = .ok (.s (aposS ++ v)) := by
  exact ⟨rfl, by simp [_cellrepr, cellreprText, hv]⟩

/-- Claim C5, witness at the formula string =A1 with an invalid policy
on the formula path. -/
theorem cellrepr_null_and_formula_witness :
    _cellrepr PyVal.none true .off = .ok (.s "") ∧
    _cellrepr (.str "=A1") false (.invalid "bogus") =
      .ok (.s (aposS ++ "=A1")) :=
  cellrepr_null_and_formula "=A1" true .off (.invalid "bogus") (by decide)

/-- Claim C10: with allow_formulas=false, a string beginning with the
equals sign is escaped and returned before the string-escaping policy is
validated, so even an invalid policy raises no configuration error on
that path. -/
theorem cellrepr_formula_before_validation (v s : String)
    (hv : strStarts v '=' = true) :
    _cellrepr (.str v) false (.invalid s) = .ok (.s (aposS ++ v)) := by
  simp [_cellrepr, cellreprText, hv]

/-- Claim C10, witness at a formula string and an arbitrary invalid
policy value. -/
theorem cellrepr_formula_before_validation_witness :
    _cellrepr (.str "=SUM(A:A)") false (.invalid "bogus") =
      .ok (.s (aposS ++ "=SUM(A:A)")) :=
  cellrepr_formula_before_validation "=SUM(A:A)" "bogus" (by decide)

/-- Claim C3, counterexample: with an invalid string_escaping and a
one-cell string dataframe, set_with_dataframe raises the configuration
ValueError, yet the trace already holds a resize call - the error is not
raised before any remote call (it is raised after the resize call). -/
theorem invalid_escaping_counterexample :
    (set_with_dataframe ⟨10, 10⟩ dfText 1 1 false true false true
        (.invalid "bogus")).error = some escapingErrorMessage ∧
    (set_with_dataframe ⟨10, 10⟩ dfText 1 1 false true false true
        (.invalid "bogus")).calls =
      [RemoteCall.resize (some 10) (some 10)] := by
  decide

/-- Claim C3, amended: for every set_with_dataframe call with an invalid
string_escaping value, allow_formulas=true, and a dataframe holding at
least one non-empty string data value, the configuration ValueError is
raised before the cell-update submission - update_cells is never called -
but after the resize call(s), which are already in the trace. -/
theorem invalid_escaping_raises_before_update (ws : Worksheet)
    (df : DataFrame) (row col : Nat) (ii ich rsz : Bool) (s v : String)
    (dr : List PyVal)
    (hlen : df.data.length ≤ (indexRows df.index).length)
    (hdr : dr ∈ df.data) (hv : PyVal.str v ∈ dr) (hne : v ≠ "") :
    (set_with_dataframe ws df row col ii ich rsz true
        (.invalid s)).error = some escapingErrorMessage ∧
    (set_with_dataframe ws df row col ii ich rsz true
        (.invalid s)).calls ≠ [] ∧
    ∀ u, RemoteCall.updateCells u ∉
      (set_with_dataframe ws df row col ii ich rsz true
        (.invalid s)).calls := by
  have herr : _cellrepr (PyVal.str v) true (.invalid s) =
      .error escapingErrorMessage := by
    simp [_cellrepr, cellreprText, _escaped_string, hne, Except.map]
  obtain ⟨iv, hzip⟩ :=
    mem_zip_left_of_mem df.data (indexRows df.index) dr hlen hdr
  have hcr : (if ii then iv ++ dr else dr) ∈ rowsWithIndex df ii := by
    simp only [rowsWithIndex, List.mem_map]
    exact ⟨(dr, iv), hzip, rfl⟩
  have hvcr : PyVal.str v ∈ (if ii then iv ++ dr else dr) := by
    cases ii <;> simp [hv]
  obtain ⟨r2, c2, hmem⟩ :=
    mem_dataEntries (dataStartRow df row ich) col (rowsWithIndex df ii)
      _ _ hcr hvcr
  have hmem2 : (r2, c2, PyVal.str v) ∈
      plannedEntries df row col ii ich := by
    simp only [plannedEntries, List.mem_append]
    exact Or.inr hmem
  obtain ⟨e, he⟩ := collectReprs_errors_of_mem true (.invalid s)
    (plannedEntries df row col ii ich) r2 c2 (PyVal.str v)
    escapingErrorMessage hmem2 herr
  have hemsg := collectReprs_error_msg true (.invalid s)
    (plannedEntries df row col ii ich) e he
  rw [hemsg] at he
  refine ⟨?_, ?_, ?_⟩
  · simp [set_with_dataframe, he]
  · simp only [set_with_dataframe, he]
    by_cases hrsz : rsz <;> simp [hrsz]
    intro hnil
    exact resize_to_minimum_both_some_ne_nil ws _ _ hnil
  · intro u hu
    simp only [set_with_dataframe, he] at hu
    by_cases hrsz : rsz <;> simp [hrsz] at hu

/-- Claim C3, witness for the amended theorem at the one-cell string
dataframe: the error is reported, the resize call was issued, and no
update_cells call is in the trace. -/
theorem invalid_escaping_raises_before_update_witness :
    (set_with_dataframe ⟨10, 10⟩ dfText 1 1 false true false true
        (.invalid "zzz")).error = some escapingErrorMessage ∧
    (set_with_dataframe ⟨10, 10⟩ dfText 1 1 false true false true
        (.invalid "zzz")).calls ≠ [] ∧
    ∀ u, RemoteCall.updateCells u ∉
      (set_with_dataframe ⟨10, 10⟩ dfText 1 1 false true false true
        (.invalid "zzz")).calls :=
  invalid_escaping_raises_before_update ⟨10, 10⟩ dfText 1 1 false true
    false "zzz" "hello" [PyVal.str "hello"] (by decide) (by decide)
    (by decide) (by decide)

/-- Claim C8: a set_with_dataframe call on a zero-row, zero-column table
with headers and index disabled plans an empty update list, logs the
no-op, issues no cell-update call and finishes without error. -/
theorem write_empty_table_noop (ws : Worksheet) (df : DataFrame)
    (row col : Nat) (rsz af : Bool) (se : StringEscaping)
    (hdata : df.data = []) (hcols : colCount df.columns = 0) :
    collectReprs af se (plannedEntries df row col false false) = .ok [] ∧
    (set_with_dataframe ws df row col false false rsz af se).error =
      Option.none ∧
    (set_with_dataframe ws df row col false false rsz af se).loggedNoUpdates
      = true ∧
    ∀ u, RemoteCall.updateCells u ∉
      (set_with_dataframe ws df row col false false rsz af se).calls := by
  have hplanned : plannedEntries df row col false false = [] := by
    simp [plannedEntries, rowsWithIndex, hdata, dataEntries]
  have hcollect : collectReprs af se
      (plannedEntries df row col false false) = .ok [] := by
    rw [hplanned]; rfl
  refine ⟨hcollect, ?_, ?_, ?_⟩
  · simp [set_with_dataframe, hcollect]
  · simp [set_with_dataframe, hcollect]
  · intro u hu
    simp only [set_with_dataframe, hcollect] at hu
    by_cases hrsz : rsz <;> simp [hrsz] at hu

/-- Claim C8, witness at a concrete empty table and a (10, 10)
worksheet. -/
theorem write_empty_table_noop_witness :
    collectReprs true StringEscaping.default
      (plannedEntries ⟨.flat PyVal.none [], .flat [], []⟩ 1 1 false false) =
      .ok [] ∧
    (set_with_dataframe ⟨10, 10⟩ ⟨.flat PyVal.none [], .flat [], []⟩ 1 1
        false false false true StringEscaping.default).error =
      Option.none ∧
    (set_with_dataframe ⟨10, 10⟩ ⟨.flat PyVal.none [], .flat [], []⟩ 1 1
        false false false true StringEscaping.default).loggedNoUpdates
      = true ∧
    ∀ u, RemoteCall.updateCells u ∉
      (set_with_dataframe ⟨10, 10⟩ ⟨.flat PyVal.none [], .flat [], []⟩ 1 1
        false false false true StringEscaping.default).calls :=
  write_empty_table_noop ⟨10, 10⟩ ⟨.flat PyVal.none [], .flat [], []⟩ 1 1
    false true StringEscaping.default (by decide) (by decide)

/-- Claim C9 (the drop-empty-columns option is modelled from the spec,
its implementation being absent from the provided source): with the
option enabled, every column whose header matches the unnamed
placeholder pattern and whose values are all null is removed, and every
column with an explicit (non-placeholder) name is retained, even when
all of its values are null. -/
theorem drop_empty_columns_behaviour (cols : List ReadColumn)
    (c : ReadColumn) (hc : c ∈ cols) :
    (unnamedPlaceholder c.label = true →
      c.cells.all Option.isNone = true →
      c ∉ dropEmptyColumnsCleanup cols true) ∧
    (unnamedPlaceholder c.label = false →
      c ∈ dropEmptyColumnsCleanup cols true) := by
  constructor
  · intro h1 h2 hmem
    simp only [dropEmptyColumnsCleanup, if_pos, List.mem_filter] at hmem
    obtain ⟨-, hkeep⟩ := hmem
    simp [h1, h2] at hkeep
  · intro h1
    simp only [dropEmptyColumnsCleanup, if_pos, List.mem_filter]
    exact ⟨hc, by simp [h1]⟩

/-- Claim C9, witness: an unnamed all-null column is dropped while a
named all-null column survives. -/
theorem drop_empty_columns_behaviour_witness :
    ReadColumn.mk "Unnamed: 3" [Option.none] ∉
      dropEmptyColumnsCleanup
        [ReadColumn.mk "Unnamed: 3" [Option.none],
         ReadColumn.mk "Empty But Named" [Option.none]] true ∧
    ReadColumn.mk "Empty But Named" [Option.none] ∈
      dropEmptyColumnsCleanup
        [ReadColumn.mk "Unnamed: 3" [Option.none],
         ReadColumn.mk "Empty But Named" [Option.none]] true := by
  constructor
  · exact (drop_empty_columns_behaviour
      [ReadColumn.mk "Unnamed: 3" [Option.none],
       ReadColumn.mk "Empty But Named" [Option.none]]
      (ReadColumn.mk "Unnamed: 3" [Option.none])
      (by decide)).1 (by decide) (by decide)
  · exact (drop_empty_columns_behaviour
      [ReadColumn.mk "Unnamed: 3" [Option.none],
       ReadColumn.mk "Empty But Named" [Option.none]]
      (ReadColumn.mk "Empty But Named" [Option.none])
      (by decide)).2 (by decide)

/-- Helper: each in-bounds position of one header level row is emitted
at that row, at the anchored column, with the tuple component of the
level. -/
theorem mem_headerLevelRow (elts : List (List PyVal)) (k : Nat)
    (hk : k < elts.length) (r c level : Nat) :
    (r, c + k, (elts.getD k []).getD level PyVal.none) ∈
      headerLevelRow r c level elts := by
  induction elts generalizing k c with
  | nil => simp at hk
  | cons tup rest ih =>
      cases k with
      | zero => simp [headerLevelRow, List.getD_cons_zero]
      | succ m =>
          have hm : m < rest.length := by simp at hk; omega
          have h2 := ih m hm (c + 1)
          have harith : c + 1 + m = c + (m + 1) := by omega
          rw [harith] at h2
          simp only [List.getD_cons_succ, headerLevelRow]
          exact List.mem_cons_of_mem _ h2

/-- Helper: a member of the header row of one level is a member of the
whole multi-level header emission when the level is in range. -/
theorem headerLevelRow_mem_multi (r c : Nat) (elts : List (List PyVal))
    (chs level : Nat) (hlv : level < chs) (x : Nat × Nat × PyVal)
    (hx : x ∈ headerLevelRow (r + level) c level elts) :
    x ∈ headerMultiEntries r c elts chs := by
  induction chs with
  | zero => simp at hlv
  | succ n ih =>
      simp only [headerMultiEntries, List.mem_append]
      rcases Nat.lt_succ_iff_lt_or_eq.mp hlv with h | rfl
      · exact Or.inl (ih h)
      · exact Or.inr hx

/-- Helper: every entry of one header level row sits exactly at that
row. -/
theorem headerLevelRow_row (r c level : Nat) (elts : List (List PyVal))
    (x : Nat × Nat × PyVal) (hx : x ∈ headerLevelRow r c level elts) :
    x.1 = r := by
  induction elts generalizing c with
  | nil => simp [headerLevelRow] at hx
  | cons tup rest ih =>
      rcases List.mem_cons.mp hx with rfl | h2
      · rfl
      · exact ih (c + 1) h2

/-- Helper: every entry of the multi-level header sits strictly above
row r + level count. -/
theorem headerMulti_row_lt (r c : Nat) (elts : List (List PyVal))
    (chs : Nat) (x : Nat × Nat × PyVal)
    (hx : x ∈ headerMultiEntries r c elts chs) : x.1 < r + chs := by
  induction chs with
  | zero => simp [headerMultiEntries] at hx
  | succ n ih =>
      simp only [headerMultiEntries, List.mem_append] at hx
      rcases hx with h | h
      · have := ih h; omega
      · have := headerLevelRow_row (r + n) c n elts x h; omega

/-- Claim C7, counterexample: on a one-column table with a two-level
header and a named flat index, written with include_index and
include_column_header, the planned layout has exactly two header rows:
the index name sits in the deepest column-label row (row 2), the data
begins at row 3, no entry at row 3 carries the index name, and the data
start row is the header level count, not the level count plus one. -/
theorem multiheader_extra_row_counterexample :
    plannedEntries dfHdr 1 1 true true =
      [(1, 1, PyVal.none), (1, 2, PyVal.str "a"),
       (2, 1, PyVal.str "idx"), (2, 2, PyVal.str "b"),
       (3, 1, PyVal.str "r1"), (3, 2, PyVal.num 1)] ∧
    (3, 1, PyVal.str "idx") ∉ plannedEntries dfHdr 1 1 true true ∧
    dataStartRow dfHdr 1 true ≠
      1 + _determine_column_header_size dfHdr.columns + 1 := by
  decide

/-- Claim C7, amended: with include_index and include_column_header and
a multi-level column header, the planned layout places each index level
name in the deepest column-label row, aligned under its index column
(with null placeholders at the higher levels); no additional header row
is reserved: every header entry lies within the level-count header rows
and the data start row is the anchor row plus the level count exactly. -/
theorem multiheader_index_names_no_extra_row (df : DataFrame)
    (r c chs : Nat) (labels : List (List PyVal)) (k : Nat)
    (hcols : df.columns = .multi chs labels) (hchs : 1 ≤ chs)
    (hk : k < (indexNames df.index).length) :
    (r + (chs - 1), c + k, (indexNames df.index).getD k PyVal.none) ∈
      plannedEntries df r c true true ∧
    (∀ x ∈ headerEntries df.columns df.index true r c, x.1 < r + chs) ∧
    dataStartRow df r true = r + chs := by
  have hmaplen : k < ((indexNames df.index).map
      (fun e => List.replicate (chs - 1) PyVal.none ++ [e])).length := by
    simpa using hk
  have hk2 : k < (((indexNames df.index).map
      (fun e => List.replicate (chs - 1) PyVal.none ++ [e])) ++
        labels).length := by
    simp at hmaplen ⊢; omega
  have hval : ((((indexNames df.index).map
      (fun e => List.replicate (chs - 1) PyVal.none ++ [e])) ++
        labels).getD k []).getD (chs - 1) PyVal.none =
      (indexNames df.index).getD k PyVal.none := by
    rw [getD_append_left _ _ k [] hmaplen]
    rw [getD_map_of_lt _ _ k [] PyVal.none hk]
    exact getD_replicate_append (chs - 1) PyVal.none _ PyVal.none
  have hmem := mem_headerLevelRow _ k hk2 (r + (chs - 1)) c (chs - 1)
  rw [hval] at hmem
  have hsub : r + (chs - 1) = r + (chs - 1) := rfl
  have hmem2 := headerLevelRow_mem_multi r c _ chs (chs - 1)
    (by omega) _ hmem
  refine ⟨?_, ?_, ?_⟩
  · have hhead : (r + (chs - 1), c + k,
        (indexNames df.index).getD k PyVal.none) ∈
        headerEntries df.columns df.index true r c := by
      rw [hcols]
      simpa [headerEntries] using hmem2
    simp only [plannedEntries, List.mem_append, if_pos]
    exact Or.inl hhead
  · intro x hx
    rw [hcols] at hx
    simp only [headerEntries, if_pos] at hx
    exact headerMulti_row_lt r c _ chs x hx
  · simp [dataStartRow, hcols, _determine_column_header_size]

/-- Claim C7, witness for the amended theorem at the concrete one-column
table: the index name is planned at the deepest header row (row 2,
column 1) and the data start row is 1 + 2. -/
theorem multiheader_index_names_no_extra_row_witness :
    (1 + (2 - 1), 1 + 0,
      (indexNames dfHdr.index).getD 0 PyVal.none) ∈
      plannedEntries dfHdr 1 1 true true ∧
    dataStartRow dfHdr 1 true = 1 + 2 := by
  obtain ⟨h1, _, h3⟩ := multiheader_index_names_no_extra_row dfHdr 1 1 2
    [[PyVal.str "a", PyVal.str "b"]] 0 (by decide) (by decide) (by decide)
  exact ⟨h1, h3⟩

/-- Helper: fill_gaps pads the row list up to the requested row count. -/
theorem fill_gaps_length (L : List (List String)) (rows cols : Nat)
    (h : L.length ≤ rows) : (fill_gaps L rows cols).length = rows := by
  simp [fill_gaps]
  omega

/-- Helper: fill_gaps pads every row to exactly the requested column
count when no response row exceeds it. -/
theorem fill_gaps_row_length (L : List (List String)) (rows cols : Nat)
    (hL : ∀ row ∈ L, row.length ≤ cols) :
    ∀ row ∈ fill_gaps L rows cols, row.length = cols := by
  intro row hrow
  simp only [fill_gaps, List.mem_map] at hrow
  obtain ⟨r0, hr0, rfl⟩ := hrow
  have hle : r0.length ≤ cols := by
    rcases List.mem_append.mp hr0 with h | h
    · exact hL r0 h
    · rw [List.eq_of_mem_replicate h]; simp
  simp
  omega

/-- Helper: with every row nonempty, the largest row key is the count of
the rows past the running offset. -/
theorem maxRowKey_all_nonempty (l : List (List String)) (i : Nat)
    (h : ∀ r ∈ l, r.isEmpty = false) :
    maxRowKey i l = if l.length = 0 then 0 else i + l.length := by
  induction l generalizing i with
  | nil => rfl
  | cons a t ih =>
      have ha : a.isEmpty = false := h a (by simp)
      have ht : ∀ r ∈ t, r.isEmpty = false := fun r hr => h r (by simp [hr])
      simp only [maxRowKey, ha, Bool.false_eq_true, if_false,
        List.length_cons, ih (i + 1) ht]
      by_cases h0 : t.length = 0 <;> simp [h0] <;> omega

/-- Helper: with every row of one common length, the largest column key
is that length. -/
theorem maxColKey_const (l : List (List String)) (c : Nat)
    (h : ∀ r ∈ l, r.length = c) (hne : l ≠ []) : maxColKey l = c := by
  induction l with
  | nil => simp at hne
  | cons a t ih =>
      have ha : a.length = c := h a (by simp)
      by_cases ht : t = []
      · subst ht; simp [maxColKey, ha]
      · have := ih (fun r hr => h r (by simp [hr])) ht
        simp [maxColKey, ha, this]

/-- Claim C6: for a worksheet of declared dimensions at least 1 x 1 and
any response whose rows lie within the declared bounds (trailing rows,
trailing cells or whole rows may be omitted), _get_all_values returns
the fully rectangular row_count x col_count grid, with every omitted
position filled with the empty string and rows and columns in ascending
1-based sheet order. -/
theorem get_all_values_rectangular (row_count col_count : Nat)
    (values : List (List String))
    (hr : 1 ≤ row_count) (hc : 1 ≤ col_count)
    (hlen : values.length ≤ row_count)
    (hrows : ∀ row ∈ values, row.length ≤ col_count) :
    _get_all_values row_count col_count values =
      (List.range row_count).map (fun i =>
        (List.range col_count).map (fun j =>
          (values.getD i []).getD j "")) := by
  have hlen2 : (fill_gaps values row_count col_count).length = row_count :=
    fill_gaps_length values row_count col_count hlen
  have hrl : ∀ row ∈ fill_gaps values row_count col_count,
      row.length = col_count :=
    fill_gaps_row_length values row_count col_count hrows
  have hnonempty : ∀ row ∈ fill_gaps values row_count col_count,
      row.isEmpty = false := by
    intro row hrow
    have hlength := hrl row hrow
    cases row with
    | nil => simp at hlength; omega
    | cons x xs => rfl
  have hmaxr : maxRowKey 0 (fill_gaps values row_count col_count) =
      row_count := by
    rw [maxRowKey_all_nonempty _ 0 hnonempty, hlen2]
    have : ¬ row_count = 0 := by omega
    simp [this]
  have hmaxc : maxColKey (fill_gaps values row_count col_count) =
      col_count := by
    refine maxColKey_const _ _ hrl ?_
    intro hnil
    rw [hnil] at hlen2
    simp at hlen2
    omega
  simp only [_get_all_values, hmaxr, hmaxc]
  rw [if_neg (by omega)]
  refine List.map_congr_left ?_
  intro i hi
  refine List.map_congr_left ?_
  intro j hj
  have hi2 : i < row_count := List.mem_range.mp hi
  show ((fill_gaps values row_count col_count).getD i []).getD j "" = _
  rw [show fill_gaps values row_count col_count =
      (values ++ List.replicate (row_count - values.length) []).map
        (fun r : List String =>
          r ++ List.replicate (col_count - r.length) "") from rfl]
  rw [getD_map_of_lt _ _ i [] [] (by simp; omega)]
  rw [getD_append_replicate]
  rw [getD_append_replicate]

/-- Claim C6, witness on a 3 x 2 worksheet with a gappy response: an
omitted middle row and a short first row come back as empty strings in a
full 3 x 2 grid. -/
theorem get_all_values_rectangular_witness :
    _get_all_values 3 2 [["a"], [], ["b", "c"]] =
      (List.range 3).map (fun i =>
        (List.range 2).map (fun j =>
          (([["a"], [], ["b", "c"]].getD i [])).getD j "")) :=
  get_all_values_rectangular 3 2 [["a"], [], ["b", "c"]]
    (by decide) (by decide) (by decide) (by decide)

end Gspread
